import Mathlib

/-!
# CadForge core — shallow embedding and verification

Shallow embedding of the CadForge agentic-runtime core (TypeScript) in Lean 4:
the permission evaluator, interaction-mode policy, context manager, session
history reader, tool executor, Anthropic provider retry loop and the agentic
loop, each translated from the corresponding source file.  Theorems at the end
settle the specification claims against these definitions.

Modelling conventions:
* JS strings are `String` (code units vs codepoints only differ outside the
  concrete inputs used here, which are ASCII);
* JS objects with optional fields become structures with `Option` fields, a
  missing field being `none`;
* fallible/exception-raising code returns `Except`/`Option`;
* external I/O (a provider's network call, a hook's shell command, a tool
  handler) is abstracted as a function parameter supplying the outcome.
-/

namespace CadForge

/-! ## Data model (packages/cli/src/llm/provider.ts, session.ts)

`ContentBlock` is the tagged content variant exchanged with providers.
`tool_result.is_error` is `Option Bool` because the JS objects built by the
code sometimes omit the field entirely (absence ≠ `false`). -/

inductive Role
  | user
  | assistant
  | system
deriving DecidableEq, Repr

inductive ContentBlock
  | text (text : String)
  | tool_use (id name input : String)
  | tool_result (tool_use_id : String) (content : String) (is_error : Option Bool)
deriving DecidableEq, Repr

/-- Message content: either a plain string or an ordered list of blocks. -/
inductive SContent
  | str (s : String)
  | blocks (bs : List ContentBlock)
deriving DecidableEq, Repr

/-! ## Permission evaluator (src/permissions/evaluator.ts) -/

structure PermissionsConfig where
  deny : List String
  allow : List String
  ask : List String
deriving DecidableEq, Repr

inductive PermissionResult
  | deny
  | allow
  | ask
deriving DecidableEq, Repr

/-- A token of the regular expression produced by `matchRule`'s chained
`String.replace` calls.  The produced regex is matched by `new RegExp` with
full-string anchors; we model the three shapes that can occur:
a literal character, `.` (any single character), and `[^/]*`.
Regex metacharacters other than `.` (such as `(`, `[`, `+`) are modelled as
literals; no rule pattern in the repository or in the claims contains one. -/
inductive GlobTok
  | lit (c : Char)
  | anyChar
  | starNoSlash
deriving DecidableEq, Repr

/-- The chained replaces of `matchRule`, at character level.  The TS code runs
`.replace(/\*\*/g, '.*')` then `.replace(/\*/g, '[^/]*')` then
`.replace(/\?/g, '.')` — note the second replace also rewrites the `*` that the
first replace just inserted, so `**` becomes `.[^/]*` (one any-character, then
any run without a separator), not `.*`.  A literal `.` in the pattern is left
unescaped and therefore matches any character. -/
def globTranslate : List Char → List GlobTok
  | [] => []
  | '*' :: '*' :: rest => .anyChar :: .starNoSlash :: globTranslate rest
  | '*' :: rest => .starNoSlash :: globTranslate rest
  | '?' :: rest => .anyChar :: globTranslate rest
  | '.' :: rest => .anyChar :: globTranslate rest
  | c :: rest => .lit c :: globTranslate rest

/-- `[^/]*` matching: try the continuation `k` after consuming zero or more
non-separator characters. -/
def starMatch (k : List Char → Bool) : List Char → Bool
  | [] => k []
  | a :: as => k (a :: as) || (a != '/' && starMatch k as)

/-- Full-string regex matching for the token language above (backtracking;
equivalent to `new RegExp('^' + regex + '$').test(argument)` for the shapes
produced by `globTranslate`). -/
def toksMatch : List GlobTok → List Char → Bool
  | [], cs => cs.isEmpty
  | .lit _ :: _, [] => false
  | .lit c :: ts, a :: as => c == a && toksMatch ts as
  | .anyChar :: _, [] => false
  | .anyChar :: ts, _ :: as => toksMatch ts as
  | .starNoSlash :: ts, cs => starMatch (toksMatch ts) cs

def isWordChar (c : Char) : Bool := c.isAlphanum || c == '_'

/-- `rule.match(/^(\w+)\((.+)\)$/)`: a maximal nonempty word-character run,
a literal `(`, a nonempty greedy middle reaching the final character, which
must be `)`. -/
def parseRule (rule : String) : Option (String × String) :=
  let cs := rule.toList
  let name := cs.takeWhile isWordChar
  let rest := cs.drop name.length
  match name, rest with
  | [], _ => none
  | _ :: _, '(' :: rs =>
    match rs.reverse with
    | ')' :: midRev => if midRev.isEmpty then none else some (String.mk name, String.mk midRev.reverse)
    | _ => none
  | _ :: _, _ => none

/-- `matchRule` from src/permissions/evaluator.ts. -/
def matchRule (rule toolName argument : String) : Bool :=
  match parseRule rule with
  | none => false
  | some (ruleTool, rulePattern) =>
    if ruleTool != toolName then false
    else if rulePattern == "*" then true
    else toksMatch (globTranslate rulePattern.toList) argument.toList

/-- `evaluatePermission` from src/permissions/evaluator.ts.  The TS loops
return on the first matching rule of each partition; since every match in a
partition yields that partition's verdict, `List.any` is equivalent. -/
def evaluatePermission (permissions : PermissionsConfig) (toolName argument : String) :
    PermissionResult :=
  if permissions.deny.any (fun rule => matchRule rule toolName argument) then .deny
  else if permissions.allow.any (fun rule => matchRule rule toolName argument) then .allow
  else if permissions.ask.any (fun rule => matchRule rule toolName argument) then .ask
  else .ask

/-! ## Tool registry (src/tools/registry.ts)

`input_schema` is a static JSON document that no embedded operation reads;
it is omitted from the embedding. -/

structure ToolDefinition where
  name : String
  description : String
deriving DecidableEq, Repr

/-- `TOOL_REGISTRY` names and descriptions, in registration order. -/
def TOOL_REGISTRY : List ToolDefinition :=
  [ ⟨"ReadFile", "Read the contents of a file"⟩,
    ⟨"WriteFile", "Write content to a file"⟩,
    ⟨"ListFiles", "List files matching a glob pattern"⟩,
    ⟨"Bash", "Execute a shell command"⟩,
    ⟨"ExecuteCadQuery", "Execute CadQuery code to create or modify 3D models"⟩,
    ⟨"AnalyzeMesh", "Analyze a mesh file for geometry metrics and manufacturing issues"⟩,
    ⟨"SearchVault", "Search the knowledge vault for relevant information"⟩,
    ⟨"ShowPreview", "Open 3D preview of a mesh file"⟩,
    ⟨"ExportModel", "Export a model to a different format"⟩,
    ⟨"RenderModel", "Render a 3D model (STL file) to PNG images from multiple camera angles"⟩,
    ⟨"GetPrinter", "Get the active printer profile"⟩,
    ⟨"Task", "Delegate a task to a subagent"⟩ ]

def getToolDefinitions : List ToolDefinition := TOOL_REGISTRY

/-! ## Interaction-mode policy (packages/cli/src/agent/modes.ts) -/

inductive InteractionMode
  | agent
  | plan
  | ask
deriving DecidableEq, Repr

def nextMode : InteractionMode → InteractionMode
  | .agent => .plan
  | .plan => .ask
  | .ask => .agent

/-- `PLAN_MODE_TOOLS` — the set literal from modes.ts, kept as a list;
membership is what the code consumes. -/
def PLAN_MODE_TOOLS : List String :=
  ["ReadFile", "ListFiles", "SearchVault", "Bash", "GetPrinter", "Task"]

/-- `getModeTools`: `none` = no filtering (agent mode). -/
def getModeTools : InteractionMode → Option (List String)
  | .agent => none
  | .plan => some PLAN_MODE_TOOLS
  | .ask => some []

/-- `getPlanModePermissions` — the permission override installed by
`processMessage` for the span of one plan-mode message. -/
def getPlanModePermissions : PermissionsConfig :=
  { deny :=
      [ "WriteFile(*)", "ExecuteCadQuery(*)", "ExportModel(*)",
        "AnalyzeMesh(*)", "ShowPreview(*)", "SearchWeb(*)" ],
    allow :=
      [ "ReadFile(*)", "ListFiles(*)", "SearchVault(*)",
        "GetPrinter(*)", "Task(*)", "Bash(*)" ],
    ask := [] }

/-- The tool-filter expression of `Agent.processMessage`:
`allowedToolNames !== null ? allTools.filter(t => allowedToolNames.has(t.name)) : allTools`. -/
def toolsForMode (mode : InteractionMode) : List ToolDefinition :=
  match getModeTools mode with
  | none => getToolDefinitions
  | some allowed => getToolDefinitions.filter (fun t => allowed.contains t.name)

/-! ## Context manager (packages/cli/src/agent/context.ts) -/

structure ApiMessage where
  role : Role
  content : SContent
deriving DecidableEq, Repr

def CHARS_PER_TOKEN : Nat := 4

/-- `Math.max(1, Math.floor(text.length / 4))`. -/
def estimateTokens (text : String) : Nat :=
  max 1 (text.length / CHARS_PER_TOKEN)

def estimateMessageTokens (message : ApiMessage) : Nat :=
  match message.content with
  | .str s => estimateTokens s
  | .blocks bs =>
    bs.foldl (fun total b =>
      match b with
      | .text t => total + estimateTokens t
      | .tool_use _ _ input => total + estimateTokens input
      | .tool_result _ _ _ => total) 0

def estimateMessagesTokens (messages : List ApiMessage) : Nat :=
  messages.foldl (fun sum m => sum + estimateMessageTokens m) 0

/-- `usageRatio(state) >= 0.80`, written over naturals: for a positive
window the double division `t / w` compares to the double literal `0.80`
exactly as the rational comparison `5 * t ≥ 4 * w` does for every pair
reachable here; a non-positive window yields ratio 0 (never compacting). -/
def needsCompaction (estimatedTokens contextWindow : Nat) : Bool :=
  0 < contextWindow && 4 * contextWindow ≤ 5 * estimatedTokens

/-- `messages.slice(-k)` for `k ≥ 0`: the last `k` elements, the whole list
when `k` exceeds the length, and — a JS quirk — the whole list when `k = 0`
(`slice(-0)` is `slice(0)`). -/
def sliceLast (messages : List ApiMessage) (k : Nat) : List ApiMessage :=
  if k = 0 then messages else messages.drop (messages.length - k)

/-- The synthetic user-role summary message built by `compactMessages`
(string copied byte-for-byte from context.ts). -/
def mkSummaryMessage (summary : String) : ApiMessage :=
  ⟨.user, .str ("[Previous conversation summary]\n\n" ++ summary ++
    "\n\n[End of summary â€” conversation continues below]")⟩

/-- `compactMessages` from context.ts (`[...messages]` returns a copy, equal
as a list). -/
def compactMessages (messages : List ApiMessage) (summary : String)
    (keepRecent : Nat := 4) : List ApiMessage :=
  if messages.length ≤ keepRecent then messages
  else mkSummaryMessage summary :: sliceLast messages keepRecent

/-! ## Session (packages/cli/src/session/session.ts)

A `SessionEntry` keeps the fields the embedded operations read: `role` and
`content`.  The `timestamp`, `tool_use_id`, `tool_result` and `usage` fields
are written but never read by `getApiMessages` or the agentic loop, so they
are omitted.  The on-disk JSONL file is modelled as the list of entries that
have been appended to it (`appendToFile` serialises one entry per line). -/

structure SessionEntry where
  role : Role
  content : SContent
deriving DecidableEq, Repr

structure Session where
  entries : List SessionEntry
  fileLines : List SessionEntry
deriving DecidableEq, Repr

/-- `Session.addMessage`: push onto `this.entries`, then append one line to
the JSONL file. -/
def Session.addMessage (s : Session) (entry : SessionEntry) : Session :=
  { entries := s.entries ++ [entry], fileLines := s.fileLines ++ [entry] }

/-- The first loop of `getApiMessages`: keep `user`/`assistant` entries,
projected to `{role, content}`. -/
def projectEntries (entries : List SessionEntry) : List ApiMessage :=
  entries.filterMap (fun e =>
    if e.role == .user || e.role == .assistant then some ⟨e.role, e.content⟩ else none)

/-- The ids of the `tool_use` blocks of a content array, in order. -/
def toolUseIds (blocks : List ContentBlock) : List String :=
  blocks.filterMap (fun b =>
    match b with
    | .tool_use id _ _ => some id
    | _ => none)

/-- One synthesized error tool-result block of the dangling-tool-use repair. -/
def mkInterruptResult (id : String) : ContentBlock :=
  .tool_result id "Session was interrupted before tool execution completed." (some true)

/-- `Session.getApiMessages` as a function of the entry list: project the
entries, then, when the last API message is an assistant turn whose content
is a block array with at least one `tool_use`, append one user message of
synthesized error tool-results. -/
def getApiMessages (entries : List SessionEntry) : List ApiMessage :=
  let apiMsgs := projectEntries entries
  match apiMsgs.getLast? with
  | some last =>
    if last.role == .assistant then
      match last.content with
      | .blocks bs =>
        let ids := toolUseIds bs
        if ids.isEmpty then apiMsgs
        else apiMsgs ++ [⟨.user, .blocks (ids.map mkInterruptResult)⟩]
      | .str _ => apiMsgs
    else apiMsgs
  | none => apiMsgs

/-- `Session.getApiMessages` as a state transformer on the `Session`: the
method body only reads `this.entries` into a fresh local array and returns
it — it contains no assignment to `this.entries` and no file write, so the
resulting state is the input state. -/
def Session.getApiMessagesM (s : Session) : List ApiMessage × Session :=
  (getApiMessages s.entries, s)

/-! ## Hook runner (src/hooks/hooks.ts)

Executing a hook's shell command is external I/O; it is abstracted as a
function `hookExec : HookDefinition → HookResult` supplied by the caller.
The matching and short-circuit logic is embedded from the source. -/

structure HookDefinition where
  type : String
  command : String
  timeout : Option Nat
deriving DecidableEq, Repr

inductive HookEvent
  | preToolUse
  | postToolUse
  | sessionStart
  | userPromptSubmit
deriving DecidableEq, Repr

structure HookConfig where
  event : HookEvent
  matcher : Option String
  hooks : List HookDefinition
deriving DecidableEq, Repr

structure HookResult where
  exitCode : Int
  stdout : String
  stderr : String
deriving DecidableEq, Repr

def isBlocked (result : HookResult) : Bool := result.exitCode == 2

/-- `matchesHook`: `*` matches everything; a `Tool(pattern)` matcher uses the
same chained-replace glob translation as the permission evaluator (the hook
module repeats that code verbatim); a bare name must equal the tool name. -/
def matchesHook (matcher toolName toolArg : String) : Bool :=
  if matcher == "*" then true
  else
    match parseRule matcher with
    | none => matcher == toolName
    | some (mTool, mPattern) =>
      if mTool != toolName then false
      else if mPattern == "*" then true
      else toksMatch (globTranslate mPattern.toList) toolArg.toList

def getMatchingHooks (configs : List HookConfig) (event : HookEvent)
    (toolName toolArg : String) : List HookDefinition :=
  configs.foldl (fun matching config =>
    if config.event != event then matching
    else if (event == .preToolUse || event == .postToolUse) &&
        !matchesHook (config.matcher.getD "*") toolName toolArg then matching
    else matching ++ config.hooks) []

/-- `runHooks`: execute matching hooks in order, stopping after the first
result with exit code 2. -/
def runHooksWith (hookExec : HookDefinition → HookResult) (configs : List HookConfig)
    (event : HookEvent) (toolName toolArg : String) : List HookResult :=
  let hooks := getMatchingHooks configs event toolName toolArg
  let rec go : List HookDefinition → List HookResult
    | [] => []
    | h :: rest =>
      let result := hookExec h
      if isBlocked result then [result] else result :: go rest
  go hooks

/-! ## Tool executor (src/tools/executor.ts) -/

/-- The named input fields that `extractPermissionArg` can read.  A field the
call does not supply is `none` (JS `undefined`). -/
structure ToolInput where
  command : Option String := none
  path : Option String := none
  output_name : Option String := none
  query : Option String := none
  source : Option String := none
  pattern : Option String := none
  agent_type : Option String := none
deriving DecidableEq, Repr

def skipWsChars : List Char → List Char
  | [] => []
  | c :: rest => if c.isWhitespace then skipWsChars rest else c :: rest

theorem skipWsChars_length_le : ∀ cs : List Char, (skipWsChars cs).length ≤ cs.length := by
  intro cs
  induction cs with
  | nil => simp [skipWsChars]
  | cons c rest ih =>
    simp only [skipWsChars]
    split
    · exact Nat.le_succ_of_le ih
    · exact Nat.le_refl _

/-- `cmd.split(/\s+/, 2)` without the limit: the (possibly empty) substrings
between maximal whitespace runs, so `" a  b "` splits to
`["", "a", "b", ""]`.  The result is never empty. -/
def jsSplitWsAux : List Char → List Char → List String
  | [], acc => [String.mk acc.reverse]
  | c :: rest, acc =>
    if c.isWhitespace then
      String.mk acc.reverse :: jsSplitWsAux (skipWsChars rest) []
    else
      jsSplitWsAux rest (c :: acc)
termination_by cs _ => cs.length
decreasing_by
  · exact Nat.lt_succ_of_le (skipWsChars_length_le rest)
  · exact Nat.lt_succ_self _

def jsSplitWs (s : String) : List String := jsSplitWsAux s.toList []

/-- `extractPermissionArg` from executor.ts.  For `Bash` the argument is
`firstWord:secondWord` of the command (`split(/\s+/, 2)` truncates to two
parts); for the file-like tools it is a named field, defaulting to `*`. -/
def extractPermissionArg (toolName : String) (toolInput : ToolInput) : String :=
  match toolName with
  | "Bash" =>
    let cmd := toolInput.command.getD ""
    match (jsSplitWs cmd).take 2 with
    | [a, b] => a ++ ":" ++ b
    | [a] => a
    | _ => "*"
  | "ReadFile" => toolInput.path.getD "*"
  | "WriteFile" => toolInput.path.getD "*"
  | "AnalyzeMesh" => toolInput.path.getD "*"
  | "ShowPreview" => toolInput.path.getD "*"
  | "ExecuteCadQuery" => toolInput.output_name.getD "*"
  | "SearchVault" => toolInput.query.getD "*"
  | "ExportModel" => toolInput.source.getD "*"
  | "ListFiles" => toolInput.pattern.getD "*"
  | "Task" => toolInput.agent_type.getD "*"
  | _ => "*"

/-- The value a `boolean | Promise<boolean>` confirmation callback returns:
either a settled boolean, or a promise carrying the boolean it would resolve
to if awaited. -/
inductive AskAnswer
  | bool (b : Bool)
  | promise (resolvesTo : Bool)
deriving DecidableEq, Repr

structure ToolExecResult where
  success : Bool
  result : Option String
  error : Option String
  blocked : Bool
deriving DecidableEq, Repr

/-- Execution trace of one `execute` call, recording which pipeline stages
ran (used to state frame/behaviour claims about the dispatcher). -/
structure ExecTrace where
  askPrompted : Bool
  preHooksRun : Bool
  handlerInvoked : Bool
  postHooksRun : Bool
deriving DecidableEq, Repr

/-- The executor's dependencies: the mutable configuration fields of the
`ToolExecutor` instance plus its two handler registries and the abstracted
hook-command runner.  A handler models
`(input) → result | throw`, the payload being its JSON serialisation. -/
structure ExecCtx where
  permissions : PermissionsConfig
  hookConfigs : List HookConfig
  askCallback : String → AskAnswer
  handlers : String → Option (ToolInput → Except String String)
  hookExec : HookDefinition → HookResult

/-- `ToolExecutor.execute` (the synchronous-compatible variant), statement by
statement.  Note the `ask` branch: `const allowed = this.askCallback(prompt);
if (typeof allowed === 'boolean' && !allowed) …` — only a literal `false`
boolean denies; a returned `Promise` is not awaited and falls through. -/
def executeSync (ctx : ExecCtx) (toolName : String) (toolInput : ToolInput) :
    ToolExecResult × ExecTrace :=
  let arg := extractPermissionArg toolName toolInput
  let perm := evaluatePermission ctx.permissions toolName arg
  if perm == .deny then
    (⟨false, none, some ("Permission denied: " ++ toolName ++ "(" ++ arg ++ ")"), true⟩,
     ⟨false, false, false, false⟩)
  else
    let askPrompted := perm == .ask
    let userDenied :=
      askPrompted &&
        (match ctx.askCallback ("Allow " ++ toolName ++ "(" ++ arg ++ ")?") with
         | .bool b => !b
         | .promise _ => false)
    if userDenied then
      (⟨false, none, some ("User denied: " ++ toolName ++ "(" ++ arg ++ ")"), true⟩,
       ⟨askPrompted, false, false, false⟩)
    else
      let preResults := runHooksWith ctx.hookExec ctx.hookConfigs .preToolUse toolName arg
      match preResults.find? isBlocked with
      | some hr =>
        (⟨false, none, some ("Blocked by hook: " ++ hr.stderr), true⟩,
         ⟨askPrompted, true, false, false⟩)
      | none =>
        match ctx.handlers toolName with
        | none =>
          (⟨false, none, some ("No handler registered for tool: " ++ toolName), false⟩,
           ⟨askPrompted, true, false, false⟩)
        | some handler =>
          match handler toolInput with
          | .ok result =>
            (⟨true, some result, none, false⟩, ⟨askPrompted, true, true, true⟩)
          | .error e =>
            (⟨false, none, some e, false⟩, ⟨askPrompted, true, true, false⟩)

/-! ## Normalized response and event stream (packages/cli/src/llm/provider.ts,
packages/shared/src/events.ts) -/

structure Usage where
  input_tokens : Nat
  output_tokens : Nat
deriving DecidableEq, Repr

structure LLMResponse where
  content : List ContentBlock
  usage : Usage
deriving DecidableEq, Repr

/-- The event variants the embedded code emits (`makeEvent(EventType…)`);
the timestamp the constructor attaches is wall-clock I/O and is omitted. -/
inductive AgentEvent
  | status (message : String)
  | textDelta (text : String)
  | textEvt (text : String)
  | toolUseStart (name id : String)
  | toolResultEvt (name id : String) (payload : Option String) (is_error : Bool)
  | completion (text : String)
  | error (message : String)
deriving DecidableEq, Repr

/-! ## Anthropic provider retry loop (packages/cli/src/llm/anthropic.ts)

One attempt of the `for` loop — the whole `try` block driving the SSE
stream — either settles with accumulated content blocks and usage, or raises.
Both the upstream behaviour and the events the attempt emitted before
settling are supplied by an `AttemptOutcome` per attempt index. -/

def RETRY_DELAYS : List Nat := [1000, 2000, 4000]

inductive AttemptOutcome
  | ok (content : List ContentBlock) (usage : Usage) (events : List AgentEvent)
  | err (retryable : Bool) (wasStreamingText : Bool) (msg : String) (events : List AgentEvent)

structure StreamOut where
  response : LLMResponse
  events : List AgentEvent
  delays : List Nat
  attempts : Nat
deriving Repr

def charsHaveStart : List Char → List Char → Bool
  | [], _ => true
  | _ :: _, [] => false
  | p :: ps, c :: cs => p == c && charsHaveStart ps cs

def charsHaveSub (needle : List Char) : List Char → Bool
  | [] => needle.isEmpty
  | c :: cs => charsHaveStart needle (c :: cs) || charsHaveSub needle cs

/-- `haystack.includes(needle)`. -/
def strIncludes (haystack needle : String) : Bool :=
  charsHaveSub needle.toList haystack.toList

def AUTH_HELP : String :=
  "\n\nCadForge supports three auth methods:\n" ++
  "1. ANTHROPIC_API_KEY env var (API key billing)\n" ++
  "2. ANTHROPIC_AUTH_TOKEN env var (OAuth token)\n" ++
  "3. Automatic: Claude Code OAuth from macOS Keychain"

/-- The error-message rewrite after retries exhaust. -/
def transformAuthMsg (raw : String) : String :=
  if strIncludes raw.toLower "api_key" || strIncludes raw.toLower "auth" then
    "Authentication error: " ++ raw ++ AUTH_HELP
  else raw

/-- The code after the retry loop: optionally flush a trailing empty text
event, emit the error event, and synthesize the error-as-text response. -/
def exhaustedResult (lastError : String) (wasStreamingText : Bool)
    (events : List AgentEvent) (delays : List Nat) (attempts : Nat) : StreamOut :=
  let errorMsg := transformAuthMsg lastError
  let events := events ++ (if wasStreamingText then [.textEvt ""] else []) ++
    [.error ("API error: " ++ errorMsg)]
  { response := ⟨[.text ("API error: " ++ errorMsg)], ⟨0, 0⟩⟩,
    events := events, delays := delays, attempts := attempts }

def retryStatusMsg (attempt : Nat) : String :=
  "API error, retrying (" ++ toString (attempt + 1) ++ "/" ++
    toString RETRY_DELAYS.length ++ ")..."

/-- The retry loop `for (let attempt = 0; attempt <= RETRY_DELAYS.length;
attempt++)`: fuel counts the remaining iterations (`RETRY_DELAYS.length + 1 -
attempt`).  A non-retryable error `break`s to the exhausted tail; a retryable
one before the last attempt emits a status event and records the backoff
delay that `setTimeout` would sleep. -/
def streamGo (outcome : Nat → AttemptOutcome) :
    Nat → Nat → String → Bool → List AgentEvent → List Nat → Nat → StreamOut
  | 0, _, lastError, wasStreamingText, events, delays, attempts =>
    exhaustedResult lastError wasStreamingText events delays attempts
  | fuel + 1, attempt, _, _, events, delays, attempts =>
    match outcome attempt with
    | .ok content usage evs =>
      let content := if content.isEmpty then [.text ""] else content
      { response := ⟨content, usage⟩, events := events ++ evs,
        delays := delays, attempts := attempts + 1 }
    | .err retryable ws msg evs =>
      let events := events ++ evs
      let attempts := attempts + 1
      if !retryable then exhaustedResult msg ws events delays attempts
      else if attempt < RETRY_DELAYS.length then
        let events := events ++ (if ws then [.textEvt ""] else []) ++
          [.status (retryStatusMsg attempt)]
        streamGo outcome fuel (attempt + 1) msg false events
          (delays ++ [RETRY_DELAYS.getD attempt 0]) attempts
      else
        streamGo outcome fuel (attempt + 1) msg ws events delays attempts

/-- `AnthropicProvider.stream`: client construction (credential refresh) may
itself fail, which returns an auth-error response without any attempt;
otherwise run the retry loop with `lastError = null`, `wasStreamingText =
false`. -/
def AnthropicProvider.stream (clientInit : Except String Unit)
    (outcome : Nat → AttemptOutcome) : StreamOut :=
  match clientInit with
  | .error e =>
    let errorText := "Authentication error: " ++ e
    { response := ⟨[.text errorText], ⟨0, 0⟩⟩,
      events := [.error errorText], delays := [], attempts := 0 }
  | .ok _ => streamGo outcome (RETRY_DELAYS.length + 1) 0 "null" false [] [] 0

/-! ## Agent (src/agent/agent.ts — the agentic loop)

The loop's collaborators are abstracted as functions: the provider maps
(iteration, history, tools) to a response or `none` (the `!response` check);
the tool executor maps (iteration, tool-use block) to a `ToolExecResult`
(`executeAsync` never throws: every failure path returns a tagged result);
the cancellation signal maps the iteration to its `aborted` flag.  Handler
payloads are carried in JSON-serialised form, so `JSON.stringify(result)` of
a success payload is the payload itself. -/

def MAX_ITERATIONS : Nat := 20

/-- JSON string escaping as `JSON.stringify` performs it for the escapes that
can occur in the error strings handled here (quote, backslash, newline,
carriage return, tab; other control characters do not occur). -/
def jsonEscapeChar (c : Char) : String :=
  if c == '"' then "\\\""
  else if c == '\\' then "\\\\"
  else if c == '\n' then "\\n"
  else if c == '\r' then "\\r"
  else if c == '\t' then "\\t"
  else String.mk [c]

def jsonStringLit (s : String) : String :=
  "\"" ++ String.join (s.toList.map jsonEscapeChar) ++ "\""

/-- `JSON.stringify({ error: result.error })`. -/
def jsonWrapError : Option String → String
  | some e => "\x7b\"error\":" ++ jsonStringLit e ++ "\x7d"
  | none => "\x7b\"error\":null\x7d"

/-- The partition of a response's content into text parts and tool-use
blocks, in order (`tool_result` blocks fall through both branches). -/
def partitionBlocks : List ContentBlock → List String × List ContentBlock
  | [] => ([], [])
  | b :: rest =>
    let (texts, tools) := partitionBlocks rest
    match b with
    | .text t => (t :: texts, tools)
    | .tool_use _ _ _ => (texts, b :: tools)
    | .tool_result _ _ _ => (texts, tools)

/-- The per-tool-use body of the loop: emit a status event, execute, emit the
tool-result event (`is_error: !result.success`), and collect the tool-result
content block — whose object literal carries `type`, `tool_use_id` and
`content` only; no `is_error` key is written. -/
def execOne (ex : ContentBlock → ToolExecResult) (b : ContentBlock) :
    List AgentEvent × ContentBlock :=
  match b with
  | .tool_use id name _ =>
    let r := ex b
    ([.status ("Executing " ++ name ++ "..."),
      .toolResultEvt name id (r.result.orElse (fun _ => r.error)) (!r.success)],
     .tool_result id
       (if r.success then r.result.getD "null" else jsonWrapError r.error) none)
  | _ => ([], b)

def execToolUses (ex : ContentBlock → ToolExecResult) (toolUses : List ContentBlock) :
    List AgentEvent × List ContentBlock :=
  toolUses.foldl (fun acc b =>
    let (evs, blk) := execOne ex b
    (acc.1 ++ evs, acc.2 ++ [blk])) ([], [])

structure LoopOut where
  finalText : String
  session : Session
  events : List AgentEvent
  providerCalls : Nat
deriving Repr

/-- `Agent.runAgenticLoop`: fuel counts the remaining iterations
(`MAX_ITERATIONS - i`); `i` is the iteration index; `calls` counts provider
invocations.  Each branch mirrors one exit or continuation of the TS loop. -/
def runAgenticLoopGo
    (provider : Nat → List ApiMessage → List ToolDefinition → Option LLMResponse)
    (execTool : Nat → ContentBlock → ToolExecResult)
    (signal : Nat → Bool) (tools : List ToolDefinition) :
    Nat → Nat → Session → List ApiMessage → List AgentEvent → Nat → LoopOut
  | 0, _, s, _, events, calls =>
    ⟨"Maximum iterations reached. Please try a simpler request.", s, events, calls⟩
  | fuel + 1, i, s, messages, events, calls =>
    if signal i then
      ⟨"Cancelled by user.", s, events ++ [.error "Cancelled"], calls⟩
    else
      let events := events ++ [.status "Thinking..."]
      match provider i messages tools with
      | none =>
        let errorMsg := "Failed to get response from API"
        let s := s.addMessage ⟨.assistant, .str errorMsg⟩
        ⟨errorMsg, s, events ++ [.error errorMsg], calls + 1⟩
      | some response =>
        let calls := calls + 1
        let parts := partitionBlocks response.content
        if parts.2.isEmpty then
          let finalText := String.intercalate "\n" parts.1
          let s := s.addMessage ⟨.assistant, .str finalText⟩
          ⟨finalText, s, events ++ [.completion finalText], calls⟩
        else
          let s := s.addMessage ⟨.assistant, .blocks response.content⟩
          let executed := execToolUses (execTool i) parts.2
          let s := s.addMessage ⟨.user, .blocks executed.2⟩
          runAgenticLoopGo provider execTool signal tools fuel (i + 1) s
            (getApiMessages s.entries) (events ++ executed.1) calls

/-- `Agent.generateSummary`: the last six of the given messages, string
contents only, first 200 characters each. -/
def generateSummary (messages : List ApiMessage) : String :=
  let parts := (sliceLast messages 6).filterMap (fun msg =>
    match msg.content with
    | .str c => if c.trim != "" then some (c.take 200) else none
    | .blocks _ => none)
  "Previous conversation covered: " ++ String.intercalate "; " parts

/-- `Agent.processMessage`: record the user turn, estimate and possibly
compact, filter tools by mode, then run the loop.  The plan-mode permission
swap acts on the executor's configuration, which is behind the abstracted
`execTool`; the mode-adjusted system prompt is likewise part of the provider
call and does not alter control flow. -/
def processMessage
    (provider : Nat → List ApiMessage → List ToolDefinition → Option LLMResponse)
    (execTool : Nat → ContentBlock → ToolExecResult)
    (signal : Nat → Bool)
    (s : Session) (userInput : String) (mode : InteractionMode)
    (contextWindow : Nat) : LoopOut :=
  let s := s.addMessage ⟨.user, .str userInput⟩
  let messages := getApiMessages s.entries
  let tokens := estimateMessagesTokens messages
  let messages :=
    if needsCompaction tokens contextWindow && decide (messages.length > 8) then
      compactMessages messages (generateSummary (messages.take (messages.length - 4)))
    else messages
  let tools := toolsForMode mode
  runAgenticLoopGo provider execTool signal tools MAX_ITERATIONS 0 s messages [] 0

/-! ## Theorems -/

/-- The deny-rule names of the plan-mode permission override. -/
def PLAN_DENIED_TOOLS : List String :=
  ["WriteFile", "ExecuteCadQuery", "ExportModel", "AnalyzeMesh", "ShowPreview", "SearchWeb"]

/-- C3: for every permissions configuration and call, a matching deny rule
makes `evaluatePermission` return `deny`, regardless of the allow and ask
lists. -/
theorem c3_deny_precedence (permissions : PermissionsConfig) (toolName argument : String)
    (h : ∃ rule ∈ permissions.deny, matchRule rule toolName argument = true) :
    evaluatePermission permissions toolName argument = .deny := by
  obtain ⟨r, hr, hm⟩ := h
  have hany : permissions.deny.any (fun rule => matchRule rule toolName argument) = true :=
    List.any_eq_true.mpr ⟨r, hr, hm⟩
  simp [evaluatePermission, hany]

/-- C3 witness: with deny `["Bash(rm:*)"]` and allow `["Bash(*)"]`, the call
`("Bash", "rm:-rf")` evaluates to deny. -/
theorem c3_deny_precedence_witness :
    evaluatePermission ⟨["Bash(rm:*)"], ["Bash(*)"], []⟩ "Bash" "rm:-rf" = .deny :=
  c3_deny_precedence _ _ _ ⟨"Bash(rm:*)", by decide, by decide⟩

/-- C4: evaluation of `matchRule` at the claim's inputs.  The chained
`replace` calls turn `**` into the regex `.[^/]*` (the second replace
rewrites the `*` of the just-inserted `.*`), so `ReadFile(**)` fails to match
the multi-segment path `a/b/c.txt`, contradicting both the claim and the
function's own doc comment ("`**` matches any path").  The single-segment
behaviour of `*` is as claimed. -/
theorem c4_glob_matching_eval :
    matchRule "ReadFile(**)" "ReadFile" "a/b/c.txt" = false ∧
    globTranslate "**".toList = [.anyChar, .starNoSlash] ∧
    matchRule "ReadFile(*.txt)" "ReadFile" "c.txt" = true ∧
    matchRule "ReadFile(*.txt)" "ReadFile" "a/b/c.txt" = false := by decide

/-- C1 counterexample: plan mode's tool set contains `Bash` — registered
with description "Execute a shell command" — and the plan-mode permission
override allows `Bash` with any argument (here `rm:-rf`), so `plan` neither
excludes every executing tool nor denies every mutating action. -/
theorem c1_counterexample :
    getModeTools .plan = some PLAN_MODE_TOOLS ∧
    PLAN_MODE_TOOLS.contains "Bash" = true ∧
    (toolsForMode .plan).contains ⟨"Bash", "Execute a shell command"⟩ = true ∧
    evaluatePermission getPlanModePermissions "Bash" "rm:-rf" = .allow := by decide

/-- C1 (amended): `getModeTools 'ask'` is the empty set and the ask-mode
tool filter yields zero tool definitions; `getModeTools 'plan'` is the fixed
six-name subset excluding the mutating/costly CAD and file tools named in
the override's deny list — though including `Bash` and `Task` — and the
plan-mode permission override denies each deny-listed tool for every
argument, regardless of the user's configured rules (the override replaces
them wholesale). -/
theorem c1_mode_tool_filtering :
    getModeTools .ask = some [] ∧
    toolsForMode .ask = [] ∧
    getModeTools .agent = none ∧
    getModeTools .plan = some PLAN_MODE_TOOLS ∧
    (∀ t ∈ PLAN_DENIED_TOOLS, PLAN_MODE_TOOLS.contains t = false) ∧
    (∀ t ∈ PLAN_DENIED_TOOLS, ∀ argument : String,
        evaluatePermission getPlanModePermissions t argument = .deny) := by
  refine ⟨rfl, by decide, rfl, rfl, by decide, ?_⟩
  intro t ht argument
  fin_cases ht <;> rfl

/-- C8: `compactMessages` with `keepRecent = 4` is the identity on histories
of at most 4 messages; on a 10-message history it returns the summary
message followed by the last 4 (5 messages total); and re-applying it with
the same summary is always a no-op. -/
theorem c8_compaction_boundary (messages : List ApiMessage) (summary : String) :
    (messages.length ≤ 4 → compactMessages messages summary 4 = messages) ∧
    (messages.length = 10 →
      compactMessages messages summary 4 = mkSummaryMessage summary :: messages.drop 6 ∧
      (compactMessages messages summary 4).length = 5) ∧
    compactMessages (compactMessages messages summary 4) summary 4 =
      compactMessages messages summary 4 := by
  refine ⟨?_, ?_, ?_⟩
  · intro h
    simp [compactMessages, h]
  · intro h
    have h4 : ¬ messages.length ≤ 4 := by omega
    constructor
    · simp [compactMessages, h4, sliceLast, h]
    · simp [compactMessages, h4, sliceLast, h]
  · by_cases hle : messages.length ≤ 4
    · simp [compactMessages, hle]
    · have hL4 : (sliceLast messages 4).length = 4 := by
        simp [sliceLast, List.length_drop]
        omega
      have houter : compactMessages messages summary 4 =
          mkSummaryMessage summary :: sliceLast messages 4 := by
        simp [compactMessages, hle]
      rw [houter]
      generalize hG : sliceLast messages 4 = L at hL4 ⊢
      have h5 : ¬ (mkSummaryMessage summary :: L).length ≤ 4 := by
        simp [hL4]
      simp only [compactMessages, if_neg h5]
      congr 1
      simp [sliceLast, List.length_cons, hL4]

/-- C8 witness: the concrete 3- and 10-message histories of the claim. -/
theorem c8_compaction_boundary_witness :
    compactMessages ((List.range 3).map (fun i => ⟨.user, .str (toString i)⟩)) "summary" 4 =
      (List.range 3).map (fun i => ⟨.user, .str (toString i)⟩) ∧
    compactMessages ((List.range 10).map (fun i => ⟨.user, .str (toString i)⟩)) "summary" 4 =
      mkSummaryMessage "summary" ::
        ((List.range 10).map (fun i => ⟨.user, .str (toString i)⟩)).drop 6 ∧
    (compactMessages ((List.range 10).map (fun i => ⟨.user, .str (toString i)⟩)) "summary" 4).length = 5 ∧
    compactMessages
        (compactMessages ((List.range 10).map (fun i => ⟨.user, .str (toString i)⟩)) "summary" 4)
        "summary" 4 =
      compactMessages ((List.range 10).map (fun i => ⟨.user, .str (toString i)⟩)) "summary" 4 :=
  ⟨(c8_compaction_boundary _ "summary").1 (by decide),
   ((c8_compaction_boundary _ "summary").2.1 (by decide)).1,
   ((c8_compaction_boundary _ "summary").2.1 (by decide)).2,
   (c8_compaction_boundary _ "summary").2.2⟩

/-- C10: `Session.getApiMessages` never mutates session state: the returned
state (entries and on-disk lines) is the input state, and repeated reads
with no intervening writes return equal message arrays — the synthesized
repair turn exists only in the returned array. -/
theorem c10_getApiMessages_pure (s : Session) :
    s.getApiMessagesM.2 = s ∧
    s.getApiMessagesM.2.entries = s.entries ∧
    s.getApiMessagesM.2.fileLines = s.fileLines ∧
    s.getApiMessagesM.2.getApiMessagesM.1 = s.getApiMessagesM.1 :=
  ⟨rfl, rfl, rfl, rfl⟩

/-- When the last session entry is an assistant turn, the projection to API
messages keeps it as its last element. -/
theorem projectEntries_getLast_assistant (entries : List SessionEntry) (c : SContent)
    (h : entries.getLast? = some ⟨.assistant, c⟩) :
    (projectEntries entries).getLast? = some ⟨.assistant, c⟩ := by
  induction entries using List.reverseRecOn with
  | nil => simp at h
  | append_singleton l e _ =>
    rw [List.getLast?_concat] at h
    injection h with h
    subst h
    simp [projectEntries, List.filterMap_append, List.getLast?_concat]

/-- C2: whenever the last recorded session entry is an assistant turn whose
block content holds at least one `tool_use` (hence no tool-result message
follows it), the API-ready history is the plain projection of the entries
followed by one new user turn holding exactly one synthesized error
tool-result per orphaned `tool_use`, in order, each referencing that block's
id, with the fixed interruption text and `is_error = true`.  `getApiMessages`
recomputes this on every read. -/
theorem c2_dangling_repair (entries : List SessionEntry) (bs : List ContentBlock)
    (hlast : entries.getLast? = some ⟨.assistant, .blocks bs⟩)
    (hids : toolUseIds bs ≠ []) :
    getApiMessages entries =
      projectEntries entries ++
        [⟨.user, .blocks ((toolUseIds bs).map mkInterruptResult)⟩] := by
  have hp := projectEntries_getLast_assistant entries (.blocks bs) hlast
  have hempty : (toolUseIds bs).isEmpty = false := by
    cases h' : toolUseIds bs with
    | nil => exact absurd h' hids
    | cons x xs => rfl
  simp [getApiMessages, hp, hempty]

/-- C2 witness: a session ending in an assistant turn with two dangling
tool-use blocks gains exactly two synthesized error tool-results, in order,
referencing `toolu_01` and `toolu_02`. -/
theorem c2_dangling_repair_witness :
    getApiMessages
        [⟨.user, .str "make a cube"⟩,
         ⟨.assistant, .blocks [.text "Working on it.",
            .tool_use "toolu_01" "ExecuteCadQuery" "{}",
            .tool_use "toolu_02" "AnalyzeMesh" "{}"]⟩] =
      projectEntries
        [⟨.user, .str "make a cube"⟩,
         ⟨.assistant, .blocks [.text "Working on it.",
            .tool_use "toolu_01" "ExecuteCadQuery" "{}",
            .tool_use "toolu_02" "AnalyzeMesh" "{}"]⟩] ++
        [⟨.user, .blocks [mkInterruptResult "toolu_01", mkInterruptResult "toolu_02"]⟩] :=
  c2_dangling_repair _
    [.text "Working on it.",
     .tool_use "toolu_01" "ExecuteCadQuery" "{}",
     .tool_use "toolu_02" "AnalyzeMesh" "{}"]
    (by decide) (by decide)

/-- C9: on the synchronous `ToolExecutor.execute` path, when permission
evaluates to `ask`, a confirmation callback returning a `Promise` — whatever
boolean it would resolve to, including `false` — is not awaited and is not
the literal boolean `false`, so the call behaves exactly as if the callback
had returned `true`: the pre-hooks run and the handler is dispatched. -/
theorem c9_ask_promise_ignored (ctx : ExecCtx) (toolName : String) (toolInput : ToolInput)
    (r : Bool)
    (h : evaluatePermission ctx.permissions toolName
        (extractPermissionArg toolName toolInput) = .ask) :
    executeSync { ctx with askCallback := fun _ => .promise r } toolName toolInput =
      executeSync { ctx with askCallback := fun _ => .bool true } toolName toolInput ∧
    (executeSync { ctx with askCallback := fun _ => .promise r } toolName toolInput).2.preHooksRun
      = true := by
  constructor
  · simp [executeSync, h]
  · simp [executeSync, h]
    split <;> try rfl
    split <;> try rfl
    split <;> rfl

/-- C9 witness: default-ask permissions, a registered `ReadFile` handler, and
a callback returning a `Promise` that would resolve to `false`; the call
still equals the approved run and executes the pre-hooks (and, by evaluation,
the handler succeeds). -/
theorem c9_ask_promise_ignored_witness :
    (executeSync
        { permissions := ⟨[], [], []⟩, hookConfigs := [],
          askCallback := fun _ => .promise false,
          handlers := fun n => if n == "ReadFile" then some (fun _ => .ok "ok") else none,
          hookExec := fun _ => ⟨0, "", ""⟩ }
        "ReadFile" { path := some "a.txt" } =
      executeSync
        { permissions := ⟨[], [], []⟩, hookConfigs := [],
          askCallback := fun _ => .bool true,
          handlers := fun n => if n == "ReadFile" then some (fun _ => .ok "ok") else none,
          hookExec := fun _ => ⟨0, "", ""⟩ }
        "ReadFile" { path := some "a.txt" }) ∧
    (executeSync
        { permissions := ⟨[], [], []⟩, hookConfigs := [],
          askCallback := fun _ => .promise false,
          handlers := fun n => if n == "ReadFile" then some (fun _ => .ok "ok") else none,
          hookExec := fun _ => ⟨0, "", ""⟩ }
        "ReadFile" { path := some "a.txt" }).2.preHooksRun = true :=
  c9_ask_promise_ignored
    { permissions := ⟨[], [], []⟩, hookConfigs := [],
      askCallback := fun _ => .promise false,
      handlers := fun n => if n == "ReadFile" then some (fun _ => .ok "ok") else none,
      hookExec := fun _ => ⟨0, "", ""⟩ }
    "ReadFile" { path := some "a.txt" } false rfl

/-- C6: when every attempt raises a transient (retryable) error, the stream
call makes exactly 4 attempts (3 retries), sleeps the doubling backoff
delays 1000/2000/4000 ms, emits one "retrying" status event before each
retry followed by a final error event, and returns — it is a total function,
so it cannot throw — a response whose sole content block is a text block
carrying the error message. -/
theorem c6_retry_exhaustion (m : Nat → String) :
    AnthropicProvider.stream (.ok ()) (fun i => .err true false (m i) []) =
      { response := ⟨[.text ("API error: " ++ transformAuthMsg (m 3))], ⟨0, 0⟩⟩,
        events := [.status (retryStatusMsg 0), .status (retryStatusMsg 1),
                   .status (retryStatusMsg 2),
                   .error ("API error: " ++ transformAuthMsg (m 3))],
        delays := [1000, 2000, 4000],
        attempts := 4 } := rfl

/-- C5 counterexample: for a concrete failing execution, the tool-result
block the loop collects into the bundled user message has the `{error}` JSON
as content but its `is_error` field is absent (`none`), not `true`. -/
theorem c5_counterexample :
    (execOne (fun _ => ⟨false, none, some "boom", false⟩)
        (.tool_use "toolu_9" "WriteFile" "{}")).2 =
      .tool_result "toolu_9" "\x7b\"error\":\"boom\"\x7d" none ∧
    (execOne (fun _ => ⟨false, none, some "boom", false⟩)
        (.tool_use "toolu_9" "WriteFile" "{}")).2 ≠
      .tool_result "toolu_9" "\x7b\"error\":\"boom\"\x7d" (some true) := by decide

/-- C5 (amended): in the agentic loop's per-tool-use body, a failed
execution yields a collected tool-result block whose content is the error
wrapped as `{error}` JSON but which carries no `is_error` field; the
`is_error = true` flag appears only on the emitted tool-result event. -/
theorem c5_failed_tool_result (ex : ContentBlock → ToolExecResult)
    (id name input : String)
    (hfail : (ex (.tool_use id name input)).success = false) :
    (execOne ex (.tool_use id name input)).2 =
      .tool_result id (jsonWrapError (ex (.tool_use id name input)).error) none ∧
    (execOne ex (.tool_use id name input)).1 =
      [.status ("Executing " ++ name ++ "..."),
       .toolResultEvt name id
         ((ex (.tool_use id name input)).result.orElse
           (fun _ => (ex (.tool_use id name input)).error)) true] := by
  simp [execOne, hfail]

/-- C5 witness: a concrete failing execution. -/
theorem c5_failed_tool_result_witness :
    (execOne (fun _ => ⟨false, none, some "disk full", false⟩)
        (.tool_use "toolu_5" "WriteFile" "{}")).2 =
      .tool_result "toolu_5" (jsonWrapError (some "disk full")) none ∧
    (execOne (fun _ => ⟨false, none, some "disk full", false⟩)
        (.tool_use "toolu_5" "WriteFile" "{}")).1 =
      [.status ("Executing " ++ "WriteFile" ++ "..."),
       .toolResultEvt "WriteFile" "toolu_5"
         ((none : Option String).orElse (fun _ => some "disk full")) true] :=
  c5_failed_tool_result (fun _ => ⟨false, none, some "disk full", false⟩)
    "toolu_5" "WriteFile" "{}" rfl

/-- The loop lemma behind C7: with no cancellation and a provider whose
every response contains a tool-use block, each iteration makes exactly one
provider call and recurses, so the loop consumes all its fuel and exits with
the fixed cap message. -/
theorem runAgenticLoopGo_cap
    (provider : Nat → List ApiMessage → List ToolDefinition → Option LLMResponse)
    (execTool : Nat → ContentBlock → ToolExecResult)
    (signal : Nat → Bool) (tools : List ToolDefinition)
    (hsignal : ∀ i, signal i = false)
    (hprovider : ∀ i messages tools', ∃ response,
        provider i messages tools' = some response ∧
        (partitionBlocks response.content).2 ≠ []) :
    ∀ fuel i s messages events calls,
      (runAgenticLoopGo provider execTool signal tools fuel i s messages events calls).finalText =
        "Maximum iterations reached. Please try a simpler request." ∧
      (runAgenticLoopGo provider execTool signal tools fuel i s messages events calls).providerCalls =
        calls + fuel := by
  intro fuel
  induction fuel with
  | zero =>
    intro i s messages events calls
    exact ⟨rfl, rfl⟩
  | succ fuel ih =>
    intro i s messages events calls
    obtain ⟨response, hresp, hne⟩ := hprovider i messages tools
    have hempty : (partitionBlocks response.content).2.isEmpty = false := by
      cases h' : (partitionBlocks response.content).2 with
      | nil => exact absurd h' hne
      | cons x xs => rfl
    simp only [runAgenticLoopGo, hsignal i, hresp, hempty, Bool.false_eq_true, if_false]
    have := ih (i + 1)
      (((s.addMessage ⟨.assistant, .blocks response.content⟩).addMessage
        ⟨.user, .blocks (execToolUses (execTool i) (partitionBlocks response.content).2).2⟩))
      (getApiMessages ((s.addMessage ⟨.assistant, .blocks response.content⟩).addMessage
        ⟨.user, .blocks (execToolUses (execTool i) (partitionBlocks response.content).2).2⟩).entries)
      (events ++ [.status "Thinking..."] ++
        (execToolUses (execTool i) (partitionBlocks response.content).2).1)
      (calls + 1)
    refine ⟨this.1, ?_⟩
    rw [this.2]
    omega

/-- C7: if every provider response contains at least one tool-use block and
no cancellation occurs, `processMessage` performs exactly 20 loop iterations
(20 provider calls) and then returns the fixed "maximum iterations reached"
message; the embedding is total, so no exception escapes. -/
theorem c7_iteration_cap
    (provider : Nat → List ApiMessage → List ToolDefinition → Option LLMResponse)
    (execTool : Nat → ContentBlock → ToolExecResult)
    (signal : Nat → Bool) (s : Session) (userInput : String) (mode : InteractionMode)
    (contextWindow : Nat)
    (hsignal : ∀ i, signal i = false)
    (hprovider : ∀ i messages tools', ∃ response,
        provider i messages tools' = some response ∧
        (partitionBlocks response.content).2 ≠ []) :
    (processMessage provider execTool signal s userInput mode contextWindow).finalText =
      "Maximum iterations reached. Please try a simpler request." ∧
    (processMessage provider execTool signal s userInput mode contextWindow).providerCalls
      = 20 := by
  have h := runAgenticLoopGo_cap provider execTool signal (toolsForMode mode)
    hsignal hprovider MAX_ITERATIONS 0
  simp only [processMessage]
  exact ⟨(h _ _ _ _).1, (h _ _ _ _).2⟩

/-- C7 witness: a provider that always answers with one tool-use block and a
never-aborting signal. -/
theorem c7_iteration_cap_witness :
    (processMessage
        (fun _ _ _ => some ⟨[.tool_use "t1" "Bash" "{}"], ⟨1, 1⟩⟩)
        (fun _ _ => ⟨true, some "\"ok\"", none, false⟩)
        (fun _ => false) ⟨[], []⟩ "hello" .agent 200000).finalText =
      "Maximum iterations reached. Please try a simpler request." ∧
    (processMessage
        (fun _ _ _ => some ⟨[.tool_use "t1" "Bash" "{}"], ⟨1, 1⟩⟩)
        (fun _ _ => ⟨true, some "\"ok\"", none, false⟩)
        (fun _ => false) ⟨[], []⟩ "hello" .agent 200000).providerCalls = 20 :=
  c7_iteration_cap _ _ _ _ _ _ _ (fun _ => rfl)
    (fun _ _ _ => ⟨⟨[.tool_use "t1" "Bash" "{}"], ⟨1, 1⟩⟩, rfl, by decide⟩)

end CadForge
